import Mathlib

/-!
# Verification of the `problem` package (RFC 9457 problem details for Go)

Shallow embedding of `problem.go` and `handler.go`:

* `Details` embeds the Go struct `problem.Details` (field `Type` is spelled
  `Typ` and field `Instance` is spelled `Inst` because both are Lean keywords;
  the Go `Underlying error` field is modelled opaquely by the error's message,
  since no verified property inspects the structure of an underlying error).
* `JSONValue` models parsed JSON values as they appear in a Go
  `map[string]any` produced by `github.com/go-json-experiment/json`: a JSON
  number is stored as a Go `float64`, and the rational `q` of
  `JSONValue.num q` carries the exact mathematical value of that `float64`.
* `ExtVal` models a Go `any` extension value for encoding purposes: either it
  serializes to some JSON value, or its own `MarshalJSON` logic aborts
  (error or panic), as with the repository test's `panicMarshaler`.
* Go maps (`Extensions`, the decoded `map[string]any`, and `http.Header`) are
  modelled as association lists whose operations (`mapGet`, `mapSet`,
  `mapDel`) follow Go map semantics; list order is a modelling artifact
  (Go map iteration order is unspecified, and no verified property depends
  on extension order).
-/

namespace Problem

/-- A JSON value as held in a Go `map[string]any` after decoding.
`num q`: `q` is the exact value of the `float64` the parser produced. -/
inductive JSONValue where
  | null
  | bool (b : Bool)
  | num (q : ℚ)
  | str (s : String)
  | arr (elems : List JSONValue)
  | obj (fields : List (String × JSONValue))

/-- A flat JSON object, as emitted by `MarshalJSONTo` (keys in emission order). -/
abbrev JSONObj := List (String × JSONValue)

/-- A Go `any` extension value, seen through its JSON-encoding behaviour:
`ok v` serializes to the JSON value `v`; `bad` is a value whose own
serialization logic aborts (like the tests' `panicMarshaler`). -/
inductive ExtVal where
  | ok (v : JSONValue)
  | bad

/-- `problem.Details` (problem.go). `Typ` is the Go field `Type`, `Inst` is
the Go field `Instance`. `Underlying` models the wrapped `error` opaquely. -/
@[ext]
structure Details where
  Typ : String := ""
  Status : Int := 0
  Title : String := ""
  Detail : String := ""
  Inst : String := ""
  Extensions : List (String × ExtVal) := []
  Underlying : Option String := none

/-- `problem.AboutBlankTypeURI`. -/
def AboutBlankTypeURI : String := "about:blank"

/-- `problem.ContentType`. -/
def ContentType : String := "application/problem+json"

/-- `cmp.Or` on strings: first argument if non-zero, else second. -/
def cmpOr (a b : String) : String := if a = "" then b else a

/-- Go map read `m[k]` (association-list model). -/
def mapGet (m : List (String × α)) (k : String) : Option α :=
  match m with
  | [] => none
  | (k', v) :: rest => if k' = k then some v else mapGet rest k

/-- Go map write `m[k] = v` (association-list model): replace the binding
for `k` if present, else add one. -/
def mapSet (m : List (String × α)) (k : String) (v : α) : List (String × α) :=
  match m with
  | [] => [(k, v)]
  | (k', v') :: rest => if k' = k then (k, v) :: rest else (k', v') :: mapSet rest k v

/-- Go map `delete(m, k)` (association-list model). -/
def mapDel (m : List (String × α)) (k : String) : List (String × α) :=
  match m with
  | [] => []
  | (k', v) :: rest => if k' = k then mapDel rest k else (k', v) :: mapDel rest k

/-- The extension-marshalling loop of `Details.MarshalJSONTo` (problem.go
lines 235-247): extension entries under the five reserved keys are skipped;
any other entry is emitted, and a value whose serialization aborts makes the
whole encode fail. -/
def marshalExt : List (String × ExtVal) → Except Unit JSONObj
  | [] => .ok []
  | (k, v) :: rest =>
    if k = "type" ∨ k = "status" ∨ k = "title" ∨ k = "detail" ∨ k = "instance" then
      marshalExt rest
    else
      match v with
      | .bad => .error ()
      | .ok jv => (marshalExt rest).map (fun r => (k, jv) :: r)

/-- `Details.MarshalJSONTo` (problem.go lines 174-254), modelled as producing
the written JSON object. The fixed fields are emitted in source order, each
only when non-empty / non-zero; `typ := cmp.Or(d.Type, AboutBlankTypeURI)`
is the value written on the `type` branch, exactly as in the source. The
status is written with `jsontext.Int(int64(d.Status))`, i.e. as an exact
integer number. -/
def marshalDetails (d : Details) : Except Unit JSONObj :=
  let fixedPart : JSONObj :=
    (if d.Typ ≠ "" then [("type", JSONValue.str (cmpOr d.Typ AboutBlankTypeURI))] else [])
    ++ (if d.Status ≠ 0 then [("status", JSONValue.num (d.Status : ℚ))] else [])
    ++ (if d.Title ≠ "" then [("title", JSONValue.str d.Title)] else [])
    ++ (if d.Detail ≠ "" then [("detail", JSONValue.str d.Detail)] else [])
    ++ (if d.Inst ≠ "" then [("instance", JSONValue.str d.Inst)] else [])
  (marshalExt d.Extensions).map (fun extPart => fixedPart ++ extPart)

/-! ## Decoding (`Details.UnmarshalJSONFrom`) -/

/-- Number of binary digits of `n`, with explicit fuel so that the definition
reduces in the kernel. Fuel 128 covers every magnitude below `2^128`, far
beyond the `int64` range relevant here. -/
def bitLenAux : Nat → Nat → Nat
  | 0, _ => 0
  | fuel + 1, n => if n = 0 then 0 else bitLenAux fuel (n / 2) + 1

/-- Number of binary digits of `n` (`0` for `0`). -/
def bitLen (n : Nat) : Nat := bitLenAux 128 n

/-- Round `n` to the nearest `Nat` with at most 53 significant binary digits,
ties to even — the value `float64(n)` for `n` in the `int64` range
(`9007199254740992 = 2^53`). -/
def round53 (n : Nat) : Nat :=
  if n ≤ 9007199254740992 then n
  else
    let s := bitLen n - 53
    let q := n / 2 ^ s
    let r := n % 2 ^ s
    let half := 2 ^ (s - 1)
    let q' := if half < r ∨ (r = half ∧ q % 2 = 1) then q + 1 else q
    q' * 2 ^ s

/-- The exact value of the `float64` nearest to the integer `i`
(for `i` in the `int64` range). -/
def roundToF64 (i : Int) : Int :=
  if i < 0 then -(round53 i.natAbs : Int) else (round53 i.natAbs : Int)

/-- `float64` conversion applied to an integer-valued wire number; numbers
that are not integers are left untouched (`MarshalJSONTo` only ever writes
integer number tokens — for the `status` field — so only those reach this
conversion in the verified compositions). -/
def parseNum (q : ℚ) : ℚ := if q.den = 1 then ((roundToF64 q.num : Int) : ℚ) else q

mutual
/-- Model of the library parse step from wire JSON to the values stored in a
Go `map[string]any`: every number becomes the nearest `float64`. -/
def parseVal : JSONValue → JSONValue
  | .null => .null
  | .bool b => .bool b
  | .num q => .num (parseNum q)
  | .str s => .str s
  | .arr xs => .arr (parseList xs)
  | .obj fs => .obj (parseFields fs)

def parseList : List JSONValue → List JSONValue
  | [] => []
  | x :: xs => parseVal x :: parseList xs

def parseFields : List (String × JSONValue) → List (String × JSONValue)
  | [] => []
  | (k, v) :: fs => (k, parseVal v) :: parseFields fs
end

/-- The input handed to `Details.UnmarshalJSONFrom`: either a byte sequence
that is not syntactically valid JSON, or a parsed JSON value. -/
inductive JSONDoc where
  | malformed
  | value (v : JSONValue)

/-- Model of `json.UnmarshalDecode(dec, &m, opts)` for `m : map[string]any`
(problem.go lines 271-275), per the `go-json-experiment/json` (json v2)
semantics: a JSON object yields its members as a map (the `jsontext` decoder
rejects objects with duplicate member names); a JSON `null` zeroes the target
map to `nil` without error; any other top-level value, and syntactically
invalid input, is an error. -/
def decodeToMap : JSONDoc → Except Unit (List (String × JSONValue))
  | .malformed => .error ()
  | .value (.obj fields) =>
    if (fields.map Prod.fst).Nodup then .ok fields else .error ()
  | .value .null => .ok []
  | .value _ => .error ()

/-- problem.go lines 286-288: `if v, ok := m["type"].(string); ok { d.Type = v }`. -/
def setTypeFrom (m : List (String × JSONValue)) (d : Details) : Details :=
  match mapGet m "type" with
  | some (.str v) => { d with Typ := v }
  | _ => d

/-- problem.go lines 290-292:
`if v, ok := m["status"].(float64); ok && float64(int(v)) == v { d.Status = int(v) }`.
`float64(int(v)) == v` holds exactly when the `float64` `v` is an integer in
the `int64` range (out-of-range conversion yields `math.MinInt64` on the
supported targets, which never converts back equal). -/
def setStatusFrom (m : List (String × JSONValue)) (d : Details) : Details :=
  match mapGet m "status" with
  | some (.num q) =>
    if q.den = 1 ∧ -9223372036854775808 ≤ q.num ∧ q.num < 9223372036854775808 then
      { d with Status := q.num }
    else d
  | _ => d

/-- problem.go lines 294-296. -/
def setTitleFrom (m : List (String × JSONValue)) (d : Details) : Details :=
  match mapGet m "title" with
  | some (.str v) => { d with Title := v }
  | _ => d

/-- problem.go lines 298-300. -/
def setDetailFrom (m : List (String × JSONValue)) (d : Details) : Details :=
  match mapGet m "detail" with
  | some (.str v) => { d with Detail := v }
  | _ => d

/-- problem.go lines 302-304. -/
def setInstanceFrom (m : List (String × JSONValue)) (d : Details) : Details :=
  match mapGet m "instance" with
  | some (.str v) => { d with Inst := v }
  | _ => d

/-- problem.go lines 306-314: delete the five reserved keys, then store
whatever remains as `Extensions` — only when something remains. -/
def setExtensionsFrom (m : List (String × JSONValue)) (d : Details) : Details :=
  let m := mapDel (mapDel (mapDel (mapDel (mapDel m "type") "status") "title") "detail") "instance"
  if m.isEmpty then d else { d with Extensions := m.map (fun kv => (kv.1, ExtVal.ok kv.2)) }

/-- `Details.UnmarshalJSONFrom` (problem.go lines 270-317): decode into a
generic map, then distribute the reserved members (each copied only when it
has the expected dynamic type) and keep the rest as extensions. -/
def unmarshalJSONFrom (d : Details) (doc : JSONDoc) : Except Unit Details :=
  match decodeToMap doc with
  | .error e => .error e
  | .ok m =>
    .ok (setExtensionsFrom m (setInstanceFrom m (setDetailFrom m (setTitleFrom m
      (setStatusFrom m (setTypeFrom m d))))))

/-- Encode with `MarshalJSONTo`, parse the resulting document back (numbers
become `float64`s), and decode it into a fresh `Details` with
`UnmarshalJSONFrom`. -/
def encodeThenDecode (d : Details) : Except Unit Details :=
  match marshalDetails d with
  | .error e => .error e
  | .ok out => unmarshalJSONFrom {} (.value (.obj (parseFields out)))

/-! ## Error values, `problem.Type`, `problem.Is`, options -/

/-- A Go `error` value, seen through the behaviour `errors.As(err, &d)` for a
`**problem.Details` target observes at each node of the unwrap chain:
`details d` is a `*problem.Details` itself; `asD d` is an error whose `As`
method fills the target with `d` (like the tests' `asTeapotDetailsError`);
`wrap inner` is an error that is not a `*Details`, has no succeeding `As`,
and unwraps to `inner`; `basic` is a plain error with neither. -/
inductive GoError where
  | details (d : Details)
  | asD (d : Details)
  | wrap (inner : GoError)
  | basic

/-- `errors.As(err, &d)` for a `**problem.Details` target: walk the unwrap
chain and return the first `*Details` obtained directly or through an `As`
method. -/
def errorsAsDetails : GoError → Option Details
  | .details d => some d
  | .asD d => some d
  | .wrap inner => errorsAsDetails inner
  | .basic => none

/-- `problem.Type` (problem.go lines 386-399); named `ProblemType` because
`Type` is a Lean keyword. -/
structure ProblemType where
  URI : String := ""
  Title : String := ""
  Status : Int := 0
  Extensions : List (String × ExtVal) := []

/-- `problem.Is` (problem.go lines 407-424). A Go `error` interface value may
be `nil`, modelled by `none`; `errors.As` returns false for a `nil` error. -/
def Is (err : Option GoError) (t : ProblemType) : Bool :=
  match err with
  | none => false
  | some e =>
    match errorsAsDetails e with
    | none => false
    | some d =>
      if t.URI ≠ "" ∧ t.URI ≠ cmpOr d.Typ AboutBlankTypeURI then false
      else if t.Title ≠ "" ∧ t.Title ≠ d.Title then false
      else if t.Status ≠ 0 ∧ t.Status ≠ d.Status then false
      else true

/-- The functional options of problem.go (`problem.Option`), as the closed set
of constructors the package exports. `withUnderlying` carries the opaque model
of the underlying error. -/
inductive Opt where
  | withStatus (status : Int)
  | withDetail (detail : String)
  | withInstance (inst : String)
  | withExtension (key : String) (value : ExtVal)
  | withExtensions (extensions : List (String × ExtVal))
  | withUnderlying (err : String)

/-- Application of one option to a `*Details` (problem.go lines 80-126).
`WithExtension` / `WithExtensions` allocate the map when it is `nil`, which in
the association-list model is just the `[]` case of `mapSet`; `WithExtensions`
is `maps.Copy`, i.e. one `mapSet` per entry of the argument. -/
def applyOpt (o : Opt) (d : Details) : Details :=
  match o with
  | .withStatus s => { d with Status := s }
  | .withDetail s => { d with Detail := s }
  | .withInstance s => { d with Inst := s }
  | .withExtension k v => { d with Extensions := mapSet d.Extensions k v }
  | .withExtensions m =>
    { d with Extensions := m.foldl (fun acc kv => mapSet acc kv.1 kv.2) d.Extensions }
  | .withUnderlying e => { d with Underlying := some e }

/-- `problem.New` (problem.go lines 134-146). -/
def New (typ : String) (title : String) (status : Int) (opts : List Opt) : Details :=
  opts.foldl (fun d o => applyOpt o d) { Typ := typ, Status := status, Title := title }

/-- `Type.Details` (problem.go lines 429-449): seed from the type, copy the
type's extensions (`maps.Clone`, a fresh copy — copying is implicit in the
value semantics of the model) when there are any, then apply the options. -/
def typeDetails (t : ProblemType) (opts : List Opt) : Details :=
  let d := New t.URI t.Title t.Status []
  let d := if t.Extensions.isEmpty then d else { d with Extensions := t.Extensions }
  opts.foldl (fun d o => applyOpt o d) d

/-! ## HTTP serving (`Details.ServeHTTP`, `problem.Handler`) -/

/-- The response writer's observable state: its header map, the status code
written by `WriteHeader` (if any), and the body as the list of writes made to
it (each write of this package is one marshalled JSON object). -/
structure ResponseState where
  headers : List (String × String) := []
  code : Option Int := none
  body : List JSONObj := []

/-- `http.Header.Del`. -/
def headerDel (h : List (String × String)) (k : String) : List (String × String) :=
  mapDel h k

/-- `http.Header.Set`: replace any existing values for the key with the one
given. -/
def headerSet (h : List (String × String)) (k v : String) : List (String × String) :=
  headerDel h k ++ [(k, v)]

/-- `http.ResponseWriter.WriteHeader`: a second call is ignored. -/
def writeHeader (w : ResponseState) (c : Int) : ResponseState :=
  if w.code.isSome then w else { w with code := some c }

/-- `Details.ServeHTTP` (problem.go lines 329-349). The second component is
the panic: `some ()` means the call panicked (encoding failed) — and then the
first component shows the response writer exactly as it was, since the
source mutates `w` only after `json.Marshal` has succeeded. -/
def serveHTTP (d : Details) (w : ResponseState) : ResponseState × Option Unit :=
  match marshalDetails d with
  | .error _ => (w, some ())
  | .ok b =>
    let h := headerDel w.headers "Content-Length"
    let h := headerSet h "Content-Type" ContentType
    let h := headerSet h "X-Content-Type-Options" "nosniff"
    let w := { w with headers := h }
    let w := if d.Status ≠ 0 then writeHeader w d.Status else writeHeader w 500
    ({ w with body := w.body ++ [b] }, none)

/-- `problem.InternalServerError` (handler.go lines 9-12). -/
def InternalServerError : Details := { Status := 500, Title := "Internal Server Error" }

/-- The value recovered from a panicking handler: either a Go `error` value or
a non-error value (a panic with `nil` surfaces in Go ≥ 1.21 as a
`*runtime.PanicNilError`, i.e. an error that is not convertible to
`*Details`). -/
inductive PanicValue where
  | errVal (e : GoError)
  | nonError

/-- The outcome of running the wrapped handler on a request: it either returns
normally or panics, in both cases leaving the response writer in some state. -/
inductive HandlerResult where
  | normal (w : ResponseState)
  | panicked (w : ResponseState) (v : PanicValue)

/-- handler.go lines 28-32: the `*Details` the middleware extracts from a
recovered panic value — `errors.As` when the value is an error, nothing
otherwise. -/
def recoveredDetails (v : PanicValue) : Option Details :=
  match v with
  | .errVal e => errorsAsDetails e
  | .nonError => none

/-- `problem.Handler` (handler.go lines 20-43) applied to one request: run the
wrapped handler; on a recovered panic, resolve a `*Details` via `errors.As`
when the recovered value is an error, fall back to `InternalServerError`, and
serve it with `Details.ServeHTTP`. The second component is the panic escaping
the middleware itself (a panic raised by `ServeHTTP` inside the deferred
function is not recovered again). -/
def handler (next : ResponseState → HandlerResult) (w : ResponseState) :
    ResponseState × Option Unit :=
  match next w with
  | .normal w' => (w', none)
  | .panicked w' v =>
    let d := (recoveredDetails v).getD InternalServerError
    serveHTTP d w'

/-! ## Specification-side observation functions -/

/-- A key is reserved when it names one of the five fixed members. -/
def reservedKey (k : String) : Prop :=
  k = "type" ∨ k = "status" ∨ k = "title" ∨ k = "detail" ∨ k = "instance"

instance (k : String) : Decidable (reservedKey k) := by
  unfold reservedKey
  infer_instance

/-- An input on which decoding must fail according to the amended C4:
syntactically invalid JSON, or a top-level value that is neither an object
nor `null`. -/
def isBadDoc : JSONDoc → Bool
  | .malformed => true
  | .value (.obj _) => false
  | .value .null => false
  | .value _ => true

/-- The `Status` written by the last status-writing option of `opts`, if any
(later options override earlier ones). -/
def lastStatus : List Opt → Option Int
  | [] => none
  | o :: rest =>
    match lastStatus rest with
    | some s => some s
    | none => match o with | .withStatus s => some s | _ => none

/-- The `Detail` written by the last detail-writing option, if any. -/
def lastDetail : List Opt → Option String
  | [] => none
  | o :: rest =>
    match lastDetail rest with
    | some s => some s
    | none => match o with | .withDetail s => some s | _ => none

/-- The `Inst` written by the last instance-writing option, if any. -/
def lastInstance : List Opt → Option String
  | [] => none
  | o :: rest =>
    match lastInstance rest with
    | some s => some s
    | none => match o with | .withInstance s => some s | _ => none

/-- The value bound to `k` by the last entry of `m` for `k`, if any
(the order `maps.Copy` writes entries in). -/
def lastInList (m : List (String × ExtVal)) (k : String) : Option ExtVal :=
  match m with
  | [] => none
  | (k', v) :: rest =>
    match lastInList rest k with
    | some r => some r
    | none => if k' = k then some v else none

/-- The extension value the last option of `opts` writing key `k` binds it
to, if any option writes `k`. -/
def lastExtWrite : List Opt → String → Option ExtVal
  | [], _ => none
  | o :: rest, k =>
    match lastExtWrite rest k with
    | some v => some v
    | none =>
      match o with
      | .withExtension k' v => if k' = k then some v else none
      | .withExtensions m => lastInList m k
      | _ => none

/-- `orElseO a b`: `a` if it holds a value, else `b`. -/
def orElseO (a : Option α) (b : Option α) : Option α :=
  match a with
  | some v => some v
  | none => b

/-! ## Helper lemmas -/

theorem mapGet_append (a b : List (String × α)) (k : String) :
    mapGet (a ++ b) k = orElseO (mapGet a k) (mapGet b k) := by
  induction a with
  | nil => simp [mapGet, orElseO]
  | cons p rest ih =>
    obtain ⟨k', v⟩ := p
    by_cases h : k' = k <;> simp [mapGet, orElseO, h, ih]

theorem mapGet_mapSet (m : List (String × α)) (k' k : String) (v : α) :
    mapGet (mapSet m k' v) k = if k' = k then some v else mapGet m k := by
  induction m with
  | nil => simp [mapSet, mapGet]
  | cons p rest ih =>
    obtain ⟨k'', v'⟩ := p
    by_cases h : k'' = k'
    · subst h
      by_cases h2 : k'' = k <;> simp [mapSet, mapGet, h2]
    · by_cases h2 : k'' = k
      · subst h2
        have h3 : ¬k' = k'' := fun hh => h hh.symm
        simp [mapSet, mapGet, h, h3]
      · simp [mapSet, mapGet, h, h2, ih]

theorem mapGet_mapDel (m : List (String × α)) (k' k : String) :
    mapGet (mapDel m k') k = if k' = k then none else mapGet m k := by
  induction m with
  | nil => simp [mapDel, mapGet]
  | cons p rest ih =>
    obtain ⟨k'', v⟩ := p
    by_cases h : k'' = k'
    · subst h
      by_cases h2 : k'' = k
      · subst h2
        simp [mapDel, mapGet, ih]
      · simp [mapDel, mapGet, h2, ih]
    · by_cases h2 : k'' = k
      · subst h2
        have h3 : ¬k' = k'' := fun hh => h hh.symm
        simp [mapDel, mapGet, h, h3]
      · simp [mapDel, mapGet, h, h2, ih]

theorem mapGet_headerDel (h : List (String × String)) (k' k : String) :
    mapGet (headerDel h k') k = if k' = k then none else mapGet h k :=
  mapGet_mapDel h k' k

theorem mapGet_headerSet (h : List (String × String)) (k' k v : String) :
    mapGet (headerSet h k' v) k = if k' = k then some v else mapGet h k := by
  by_cases hk : k' = k
  · subst hk
    simp [headerSet, mapGet_append, mapGet_headerDel, mapGet, orElseO]
  · simp [headerSet, mapGet_append, mapGet_headerDel, hk, mapGet, orElseO]
    cases mapGet h k <;> rfl

theorem marshalExt_cons (k : String) (v : ExtVal) (rest : List (String × ExtVal)) :
    marshalExt ((k, v) :: rest) =
      (if k = "type" ∨ k = "status" ∨ k = "title" ∨ k = "detail" ∨ k = "instance" then
        marshalExt rest
      else
        match v with
        | .bad => .error ()
        | .ok jv => (marshalExt rest).map (fun r => (k, jv) :: r)) := rfl

theorem marshalExt_reserved_filter (exts : List (String × ExtVal)) (e : JSONObj)
    (h : marshalExt exts = .ok e) (k : String) (hk : reservedKey k) :
    e.filter (fun p => decide (p.1 = k)) = [] := by
  induction exts generalizing e with
  | nil =>
    simp only [marshalExt] at h
    cases h
    rfl
  | cons p rest ih =>
    obtain ⟨k', v⟩ := p
    by_cases hres : k' = "type" ∨ k' = "status" ∨ k' = "title" ∨ k' = "detail" ∨ k' = "instance"
    · rw [marshalExt_cons] at h
      rw [if_pos hres] at h
      exact ih e h
    · rw [marshalExt_cons] at h
      rw [if_neg hres] at h
      cases v with
      | bad => cases h
      | ok jv =>
        cases hrec : marshalExt rest with
        | error e' => rw [hrec] at h; cases h
        | ok r =>
          rw [hrec] at h
          cases h
          have hne : ¬k' = k := by
            rcases hk with hk | hk | hk | hk | hk <;> subst hk <;> tauto
          simp [List.filter, hne, ih r hrec]

theorem marshalExt_reserved_mapGet (exts : List (String × ExtVal)) (e : JSONObj)
    (h : marshalExt exts = .ok e) (k : String) (hk : reservedKey k) :
    mapGet e k = none := by
  induction exts generalizing e with
  | nil =>
    simp only [marshalExt] at h
    cases h
    rfl
  | cons p rest ih =>
    obtain ⟨k', v⟩ := p
    by_cases hres : k' = "type" ∨ k' = "status" ∨ k' = "title" ∨ k' = "detail" ∨ k' = "instance"
    · rw [marshalExt_cons] at h
      rw [if_pos hres] at h
      exact ih e h
    · rw [marshalExt_cons] at h
      rw [if_neg hres] at h
      cases v with
      | bad => cases h
      | ok jv =>
        cases hrec : marshalExt rest with
        | error e' => rw [hrec] at h; cases h
        | ok r =>
          rw [hrec] at h
          cases h
          have hne : ¬k' = k := by
            rcases hk with hk | hk | hk | hk | hk <;> subst hk <;> tauto
          simp [mapGet, hne, ih r hrec]

/-! Rounding lemmas for the `float64` model. -/

theorem round53_id (n : Nat) (h : n ≤ 9007199254740992) : round53 n = n := by
  unfold round53
  rw [if_pos h]

theorem roundToF64_id (i : Int) (h : i.natAbs ≤ 9007199254740992) : roundToF64 i = i := by
  unfold roundToF64
  rw [round53_id i.natAbs h]
  split <;> omega

/-! Projection and preservation lemmas for the decode steps. -/

theorem setTypeFrom_Typ (m : List (String × JSONValue)) (d : Details) :
    (setTypeFrom m d).Typ =
      (match mapGet m "type" with | some (.str v) => v | _ => d.Typ) := by
  unfold setTypeFrom
  split <;> rfl

theorem setStatusFrom_Status (m : List (String × JSONValue)) (d : Details) :
    (setStatusFrom m d).Status =
      (match mapGet m "status" with
       | some (.num q) =>
         if q.den = 1 ∧ -9223372036854775808 ≤ q.num ∧ q.num < 9223372036854775808 then
           q.num
         else d.Status
       | _ => d.Status) := by
  unfold setStatusFrom
  split
  · split <;> rfl
  · rfl

theorem setTitleFrom_Title (m : List (String × JSONValue)) (d : Details) :
    (setTitleFrom m d).Title =
      (match mapGet m "title" with | some (.str v) => v | _ => d.Title) := by
  unfold setTitleFrom
  split <;> rfl

theorem setDetailFrom_Detail (m : List (String × JSONValue)) (d : Details) :
    (setDetailFrom m d).Detail =
      (match mapGet m "detail" with | some (.str v) => v | _ => d.Detail) := by
  unfold setDetailFrom
  split <;> rfl

theorem setInstanceFrom_Inst (m : List (String × JSONValue)) (d : Details) :
    (setInstanceFrom m d).Inst =
      (match mapGet m "instance" with | some (.str v) => v | _ => d.Inst) := by
  unfold setInstanceFrom
  split <;> rfl

theorem setTypeFrom_Status (m : List (String × JSONValue)) (d : Details) :
    (setTypeFrom m d).Status = d.Status := by
  unfold setTypeFrom
  split <;> rfl

theorem setTypeFrom_Title (m : List (String × JSONValue)) (d : Details) :
    (setTypeFrom m d).Title = d.Title := by
  unfold setTypeFrom
  split <;> rfl

theorem setTypeFrom_Detail (m : List (String × JSONValue)) (d : Details) :
    (setTypeFrom m d).Detail = d.Detail := by
  unfold setTypeFrom
  split <;> rfl

theorem setTypeFrom_Inst (m : List (String × JSONValue)) (d : Details) :
    (setTypeFrom m d).Inst = d.Inst := by
  unfold setTypeFrom
  split <;> rfl

theorem setStatusFrom_Title (m : List (String × JSONValue)) (d : Details) :
    (setStatusFrom m d).Title = d.Title := by
  unfold setStatusFrom
  split
  · split <;> rfl
  · rfl

theorem setStatusFrom_Detail (m : List (String × JSONValue)) (d : Details) :
    (setStatusFrom m d).Detail = d.Detail := by
  unfold setStatusFrom
  split
  · split <;> rfl
  · rfl

theorem setStatusFrom_Inst (m : List (String × JSONValue)) (d : Details) :
    (setStatusFrom m d).Inst = d.Inst := by
  unfold setStatusFrom
  split
  · split <;> rfl
  · rfl

theorem setTitleFrom_Detail (m : List (String × JSONValue)) (d : Details) :
    (setTitleFrom m d).Detail = d.Detail := by
  unfold setTitleFrom
  split <;> rfl

theorem setTitleFrom_Inst (m : List (String × JSONValue)) (d : Details) :
    (setTitleFrom m d).Inst = d.Inst := by
  unfold setTitleFrom
  split <;> rfl

theorem setDetailFrom_Inst (m : List (String × JSONValue)) (d : Details) :
    (setDetailFrom m d).Inst = d.Inst := by
  unfold setDetailFrom
  split <;> rfl

theorem setStatusFrom_Typ (m : List (String × JSONValue)) (d : Details) :
    (setStatusFrom m d).Typ = d.Typ := by
  unfold setStatusFrom
  split
  · split <;> rfl
  · rfl

theorem setTitleFrom_Typ (m : List (String × JSONValue)) (d : Details) :
    (setTitleFrom m d).Typ = d.Typ := by
  unfold setTitleFrom
  split <;> rfl

theorem setTitleFrom_Status (m : List (String × JSONValue)) (d : Details) :
    (setTitleFrom m d).Status = d.Status := by
  unfold setTitleFrom
  split <;> rfl

theorem setDetailFrom_Typ (m : List (String × JSONValue)) (d : Details) :
    (setDetailFrom m d).Typ = d.Typ := by
  unfold setDetailFrom
  split <;> rfl

theorem setDetailFrom_Status (m : List (String × JSONValue)) (d : Details) :
    (setDetailFrom m d).Status = d.Status := by
  unfold setDetailFrom
  split <;> rfl

theorem setDetailFrom_Title (m : List (String × JSONValue)) (d : Details) :
    (setDetailFrom m d).Title = d.Title := by
  unfold setDetailFrom
  split <;> rfl

theorem setInstanceFrom_Typ (m : List (String × JSONValue)) (d : Details) :
    (setInstanceFrom m d).Typ = d.Typ := by
  unfold setInstanceFrom
  split <;> rfl

theorem setInstanceFrom_Status (m : List (String × JSONValue)) (d : Details) :
    (setInstanceFrom m d).Status = d.Status := by
  unfold setInstanceFrom
  split <;> rfl

theorem setInstanceFrom_Title (m : List (String × JSONValue)) (d : Details) :
    (setInstanceFrom m d).Title = d.Title := by
  unfold setInstanceFrom
  split <;> rfl

theorem setInstanceFrom_Detail (m : List (String × JSONValue)) (d : Details) :
    (setInstanceFrom m d).Detail = d.Detail := by
  unfold setInstanceFrom
  split <;> rfl

theorem setExtensionsFrom_Typ (m : List (String × JSONValue)) (d : Details) :
    (setExtensionsFrom m d).Typ = d.Typ := by
  simp only [setExtensionsFrom]
  split <;> rfl

theorem setExtensionsFrom_Status (m : List (String × JSONValue)) (d : Details) :
    (setExtensionsFrom m d).Status = d.Status := by
  simp only [setExtensionsFrom]
  split <;> rfl

theorem setExtensionsFrom_Title (m : List (String × JSONValue)) (d : Details) :
    (setExtensionsFrom m d).Title = d.Title := by
  simp only [setExtensionsFrom]
  split <;> rfl

theorem setExtensionsFrom_Detail (m : List (String × JSONValue)) (d : Details) :
    (setExtensionsFrom m d).Detail = d.Detail := by
  simp only [setExtensionsFrom]
  split <;> rfl

theorem setExtensionsFrom_Inst (m : List (String × JSONValue)) (d : Details) :
    (setExtensionsFrom m d).Inst = d.Inst := by
  simp only [setExtensionsFrom]
  split <;> rfl

theorem unmarshal_obj (m : List (String × JSONValue)) (hnd : (m.map Prod.fst).Nodup)
    (d : Details) :
    unmarshalJSONFrom d (.value (.obj m)) =
      .ok (setExtensionsFrom m (setInstanceFrom m (setDetailFrom m (setTitleFrom m
        (setStatusFrom m (setTypeFrom m d)))))) := by
  simp [unmarshalJSONFrom, decodeToMap, hnd]

theorem applyOpt_Typ (o : Opt) (d : Details) : (applyOpt o d).Typ = d.Typ := by
  cases o <;> rfl

theorem applyOpt_Title (o : Opt) (d : Details) : (applyOpt o d).Title = d.Title := by
  cases o <;> rfl

theorem foldl_applyOpt_Typ (opts : List Opt) :
    ∀ d : Details, (opts.foldl (fun d o => applyOpt o d) d).Typ = d.Typ := by
  induction opts with
  | nil => intro d; rfl
  | cons o rest ih =>
    intro d
    rw [List.foldl_cons, ih, applyOpt_Typ]

theorem foldl_applyOpt_Title (opts : List Opt) :
    ∀ d : Details, (opts.foldl (fun d o => applyOpt o d) d).Title = d.Title := by
  induction opts with
  | nil => intro d; rfl
  | cons o rest ih =>
    intro d
    rw [List.foldl_cons, ih, applyOpt_Title]

theorem foldl_applyOpt_Status (opts : List Opt) :
    ∀ d : Details,
      (opts.foldl (fun d o => applyOpt o d) d).Status = (lastStatus opts).getD d.Status := by
  induction opts with
  | nil => intro d; rfl
  | cons o rest ih =>
    intro d
    rw [List.foldl_cons, ih]
    cases h : lastStatus rest with
    | some s => simp [lastStatus, h]
    | none => cases o <;> simp [lastStatus, h, applyOpt]

theorem foldl_applyOpt_Detail (opts : List Opt) :
    ∀ d : Details,
      (opts.foldl (fun d o => applyOpt o d) d).Detail = (lastDetail opts).getD d.Detail := by
  induction opts with
  | nil => intro d; rfl
  | cons o rest ih =>
    intro d
    rw [List.foldl_cons, ih]
    cases h : lastDetail rest with
    | some s => simp [lastDetail, h]
    | none => cases o <;> simp [lastDetail, h, applyOpt]

theorem foldl_applyOpt_Inst (opts : List Opt) :
    ∀ d : Details,
      (opts.foldl (fun d o => applyOpt o d) d).Inst = (lastInstance opts).getD d.Inst := by
  induction opts with
  | nil => intro d; rfl
  | cons o rest ih =>
    intro d
    rw [List.foldl_cons, ih]
    cases h : lastInstance rest with
    | some s => simp [lastInstance, h]
    | none => cases o <;> simp [lastInstance, h, applyOpt]

theorem mapGet_copyFold (src : List (String × ExtVal)) :
    ∀ (m : List (String × ExtVal)) (k : String),
      mapGet (src.foldl (fun acc kv => mapSet acc kv.1 kv.2) m) k =
        orElseO (lastInList src k) (mapGet m k) := by
  induction src with
  | nil => intro m k; rfl
  | cons p rest ih =>
    intro m k
    obtain ⟨k2, v⟩ := p
    rw [List.foldl_cons, ih (mapSet m k2 v) k]
    cases h : lastInList rest k with
    | some r => simp [lastInList, h, orElseO]
    | none =>
      by_cases h2 : k2 = k <;>
        simp [lastInList, h, h2, orElseO, mapGet_mapSet]

theorem foldl_applyOpt_Ext (opts : List Opt) :
    ∀ (d : Details) (k : String),
      mapGet (opts.foldl (fun d o => applyOpt o d) d).Extensions k =
        orElseO (lastExtWrite opts k) (mapGet d.Extensions k) := by
  induction opts with
  | nil => intro d k; rfl
  | cons o rest ih =>
    intro d k
    rw [List.foldl_cons, ih (applyOpt o d) k]
    cases h : lastExtWrite rest k with
    | some v => simp [lastExtWrite, h, orElseO]
    | none =>
      cases o with
      | withStatus s => simp [lastExtWrite, h, orElseO, applyOpt]
      | withDetail s => simp [lastExtWrite, h, orElseO, applyOpt]
      | withInstance s => simp [lastExtWrite, h, orElseO, applyOpt]
      | withUnderlying e => simp [lastExtWrite, h, orElseO, applyOpt]
      | withExtension k2 v =>
        by_cases h2 : k2 = k <;>
          simp [lastExtWrite, h, h2, orElseO, applyOpt, mapGet_mapSet]
      | withExtensions m =>
        simp only [lastExtWrite, h, orElseO, applyOpt]
        rw [mapGet_copyFold]
        rfl

theorem mapGet_if_singleton (c : Prop) [Decidable c] (k1 k : String) (v : α) :
    mapGet (if c then [(k1, v)] else []) k = if c ∧ k1 = k then some v else none := by
  by_cases hc : c <;> by_cases hk : k1 = k <;> simp [hc, hk, mapGet]

theorem filter_if_singleton (c : Prop) [Decidable c] (k1 k : String) (v : α) :
    List.filter (fun p => decide (p.1 = k)) (if c then [(k1, v)] else []) =
      if c ∧ k1 = k then [(k1, v)] else [] := by
  by_cases hc : c <;> by_cases hk : k1 = k <;> simp [hc, hk]

theorem mapGet_if_singleton_flip (c : Prop) [Decidable c] (k1 k : String) (v : α) :
    mapGet (if c then [] else [(k1, v)]) k = if ¬c ∧ k1 = k then some v else none := by
  by_cases hc : c <;> by_cases hk : k1 = k <;> simp [hc, hk, mapGet]

theorem filter_if_singleton_flip (c : Prop) [Decidable c] (k1 k : String) (v : α) :
    List.filter (fun p => decide (p.1 = k)) (if c then [] else [(k1, v)]) =
      if ¬c ∧ k1 = k then [(k1, v)] else [] := by
  by_cases hc : c <;> by_cases hk : k1 = k <;> simp [hc, hk]

theorem marshalDetails_ok (d : Details) (out : JSONObj) (h : marshalDetails d = .ok out) :
    ∃ e, marshalExt d.Extensions = .ok e ∧
      out = (if d.Typ ≠ "" then [("type", JSONValue.str (cmpOr d.Typ AboutBlankTypeURI))] else [])
        ++ ((if d.Status ≠ 0 then [("status", JSONValue.num (d.Status : ℚ))] else [])
        ++ ((if d.Title ≠ "" then [("title", JSONValue.str d.Title)] else [])
        ++ ((if d.Detail ≠ "" then [("detail", JSONValue.str d.Detail)] else [])
        ++ ((if d.Inst ≠ "" then [("instance", JSONValue.str d.Inst)] else [])
        ++ e)))) := by
  unfold marshalDetails at h
  cases hext : marshalExt d.Extensions with
  | error e =>
    rw [hext] at h
    cases h
  | ok e =>
    rw [hext] at h
    simp only [Except.map] at h
    refine ⟨e, rfl, ?_⟩
    cases h
    simp [List.append_assoc]

theorem parseFields_append (a b : List (String × JSONValue)) :
    parseFields (a ++ b) = parseFields a ++ parseFields b := by
  induction a with
  | nil => rfl
  | cons p rest ih =>
    obtain ⟨k, v⟩ := p
    simp [parseFields, ih]

theorem parseFields_if_singleton (c : Prop) [Decidable c] (k : String) (v : JSONValue) :
    parseFields (if c then [(k, v)] else []) = if c then [(k, parseVal v)] else [] := by
  split <;> simp [parseFields]

theorem mapDel_append (a b : List (String × α)) (k : String) :
    mapDel (a ++ b) k = mapDel a k ++ mapDel b k := by
  induction a with
  | nil => rfl
  | cons p rest ih =>
    obtain ⟨k1, v⟩ := p
    by_cases h : k1 = k <;> simp [mapDel, h, ih]

theorem mapDel_if_singleton (c : Prop) [Decidable c] (k1 k : String) (v : α) :
    mapDel (if c then [(k1, v)] else []) k =
      if c ∧ ¬k1 = k then [(k1, v)] else [] := by
  by_cases hc : c <;> by_cases hk : k1 = k <;> simp [hc, hk, mapDel]

theorem mapDel_if_singleton_flip (c : Prop) [Decidable c] (k1 k : String) (v : α) :
    mapDel (if c then [] else [(k1, v)]) k =
      if ¬c ∧ ¬k1 = k then [(k1, v)] else [] := by
  by_cases hc : c <;> by_cases hk : k1 = k <;> simp [hc, hk, mapDel]

theorem encodeThenDecode_ok (d : Details) (out : JSONObj)
    (h : marshalDetails d = .ok out) :
    encodeThenDecode d = unmarshalJSONFrom {} (.value (.obj (parseFields out))) := by
  unfold encodeThenDecode
  rw [h]

theorem setTypeFrom_Ext (m : List (String × JSONValue)) (d : Details) :
    (setTypeFrom m d).Extensions = d.Extensions := by
  unfold setTypeFrom
  split <;> rfl

theorem setStatusFrom_Ext (m : List (String × JSONValue)) (d : Details) :
    (setStatusFrom m d).Extensions = d.Extensions := by
  unfold setStatusFrom
  split
  · split <;> rfl
  · rfl

theorem setTitleFrom_Ext (m : List (String × JSONValue)) (d : Details) :
    (setTitleFrom m d).Extensions = d.Extensions := by
  unfold setTitleFrom
  split <;> rfl

theorem setDetailFrom_Ext (m : List (String × JSONValue)) (d : Details) :
    (setDetailFrom m d).Extensions = d.Extensions := by
  unfold setDetailFrom
  split <;> rfl

theorem setInstanceFrom_Ext (m : List (String × JSONValue)) (d : Details) :
    (setInstanceFrom m d).Extensions = d.Extensions := by
  unfold setInstanceFrom
  split <;> rfl

theorem setTypeFrom_Und (m : List (String × JSONValue)) (d : Details) :
    (setTypeFrom m d).Underlying = d.Underlying := by
  unfold setTypeFrom
  split <;> rfl

theorem setStatusFrom_Und (m : List (String × JSONValue)) (d : Details) :
    (setStatusFrom m d).Underlying = d.Underlying := by
  unfold setStatusFrom
  split
  · split <;> rfl
  · rfl

theorem setTitleFrom_Und (m : List (String × JSONValue)) (d : Details) :
    (setTitleFrom m d).Underlying = d.Underlying := by
  unfold setTitleFrom
  split <;> rfl

theorem setDetailFrom_Und (m : List (String × JSONValue)) (d : Details) :
    (setDetailFrom m d).Underlying = d.Underlying := by
  unfold setDetailFrom
  split <;> rfl

theorem setInstanceFrom_Und (m : List (String × JSONValue)) (d : Details) :
    (setInstanceFrom m d).Underlying = d.Underlying := by
  unfold setInstanceFrom
  split <;> rfl

theorem setExtensionsFrom_of_empty (m : List (String × JSONValue)) (d : Details)
    (h : mapDel (mapDel (mapDel (mapDel (mapDel m "type") "status") "title") "detail")
      "instance" = []) :
    setExtensionsFrom m d = d := by
  simp only [setExtensionsFrom]
  rw [h]
  rfl

/-! ## Claim theorems -/

/-- C1, counterexample: a `Details` with empty `Type` but a non-empty `Title`
encodes to an object with NO `type` key at all — the claim that the `type`
key is still emitted with value `"about:blank"` is false on the code
(`MarshalJSONTo` writes the `type` member only inside the `d.Type != ""`
branch, and the repository test `TestDetails_MarshalJSON/Empty` expects
`{}`). -/
theorem marshal_empty_type_counterexample :
    (marshalDetails { Title := "T" }).map (fun out => mapGet out "type") = Except.ok none := rfl

/-- C1 (amended): on a successful encode the `type` key is present exactly
when `Type` is non-empty, and then carries the literal `Type` value; when
`Type` is empty the key is omitted entirely (the `about:blank` constant never
reaches the output of `MarshalJSONTo`). -/
theorem marshal_type_key (d : Details) (out : JSONObj) (h : marshalDetails d = .ok out) :
    mapGet out "type" = if d.Typ = "" then none else some (JSONValue.str d.Typ) := by
  rcases marshalDetails_ok d out h with ⟨e, hext, rfl⟩
  have hres := marshalExt_reserved_mapGet _ _ hext "type" (Or.inl rfl)
  by_cases h1 : d.Typ = "" <;>
    simp [h1, mapGet, mapGet_append, mapGet_if_singleton, mapGet_if_singleton_flip, orElseO,
      hres, cmpOr]

/-- Witness for C1 (amended) at `Type = "u"`, `Title = "T"`. -/
theorem marshal_type_key_witness :
    marshalDetails { Typ := "u", Title := "T" } =
      Except.ok [("type", JSONValue.str "u"), ("title", JSONValue.str "T")] ∧
    mapGet [("type", JSONValue.str "u"), ("title", JSONValue.str "T")] "type" =
      (if ("u" : String) = "" then none else some (JSONValue.str "u")) :=
  ⟨rfl, marshal_type_key { Typ := "u", Title := "T" } _ rfl⟩

/-- C2: on a successful encode, each of the five reserved output keys
reflects only the corresponding fixed field — it appears exactly once with
the fixed field's value when that field is non-empty / non-zero, and not at
all when the field is empty/zero — regardless of what the extensions mapping
binds those keys to. -/
theorem marshal_reserved_shadowing (d : Details) (out : JSONObj)
    (h : marshalDetails d = .ok out) :
    out.filter (fun p => p.1 = "type") =
      (if d.Typ = "" then [] else [("type", JSONValue.str d.Typ)]) ∧
    out.filter (fun p => p.1 = "status") =
      (if d.Status = 0 then [] else [("status", JSONValue.num (d.Status : ℚ))]) ∧
    out.filter (fun p => p.1 = "title") =
      (if d.Title = "" then [] else [("title", JSONValue.str d.Title)]) ∧
    out.filter (fun p => p.1 = "detail") =
      (if d.Detail = "" then [] else [("detail", JSONValue.str d.Detail)]) ∧
    out.filter (fun p => p.1 = "instance") =
      (if d.Inst = "" then [] else [("instance", JSONValue.str d.Inst)]) := by
  rcases marshalDetails_ok d out h with ⟨e, hext, rfl⟩
  refine ⟨?_, ?_, ?_, ?_, ?_⟩
  · have hres := marshalExt_reserved_filter _ _ hext "type" (by left; rfl)
    by_cases h1 : d.Typ = "" <;>
      simp [h1, List.filter_append, filter_if_singleton, filter_if_singleton_flip, hres, cmpOr]
  · have hres := marshalExt_reserved_filter _ _ hext "status" (by right; left; rfl)
    by_cases h1 : d.Status = 0 <;>
      simp [h1, List.filter_append, filter_if_singleton, filter_if_singleton_flip, hres]
  · have hres := marshalExt_reserved_filter _ _ hext "title" (by right; right; left; rfl)
    by_cases h1 : d.Title = "" <;>
      simp [h1, List.filter_append, filter_if_singleton, filter_if_singleton_flip, hres]
  · have hres := marshalExt_reserved_filter _ _ hext "detail" (by right; right; right; left; rfl)
    by_cases h1 : d.Detail = "" <;>
      simp [h1, List.filter_append, filter_if_singleton, filter_if_singleton_flip, hres]
  · have hres := marshalExt_reserved_filter _ _ hext "instance" (by right; right; right; right; rfl)
    by_cases h1 : d.Inst = "" <;>
      simp [h1, List.filter_append, filter_if_singleton, filter_if_singleton_flip, hres]

/-- Witness for C2 at the test input `Conflicting extension keys`: every
reserved key also appears in the extensions mapping, yet the output carries
only the fixed fields (and omits `instance`, whose fixed field is empty). -/
theorem marshal_reserved_shadowing_witness :
    marshalDetails
        { Typ := "u", Title := "T", Status := 403, Detail := "D",
          Extensions :=
            [("type", .ok (.str "about:blank")), ("title", .ok (.str "teapot")),
             ("status", .ok (.num 418)), ("detail", .ok (.str "teapot")),
             ("instance", .ok (.str "/428"))] } =
      Except.ok
        [("type", JSONValue.str "u"), ("status", JSONValue.num 403),
         ("title", JSONValue.str "T"), ("detail", JSONValue.str "D")] ∧
    ([("type", JSONValue.str "u"), ("status", JSONValue.num 403),
      ("title", JSONValue.str "T"), ("detail", JSONValue.str "D")].filter
        (fun p => p.1 = "instance")) =
      (if ("" : String) = "" then [] else [("instance", JSONValue.str "")]) :=
  ⟨rfl,
    (marshal_reserved_shadowing
      { Typ := "u", Title := "T", Status := 403, Detail := "D",
        Extensions :=
          [("type", .ok (.str "about:blank")), ("title", .ok (.str "teapot")),
           ("status", .ok (.num 418)), ("detail", .ok (.str "teapot")),
           ("instance", .ok (.str "/428"))] } _ rfl).2.2.2.2⟩

/-- C4, counterexample: a top-level JSON `null` is not an object, yet
`UnmarshalJSONFrom` succeeds on it — json v2 unmarshals `null` into the
target map as `nil` without error, every type assertion then fails, and the
empty map leaves `Extensions` untouched — so the value decodes without error
to an unchanged `Details`. -/
theorem unmarshal_null_counterexample :
    unmarshalJSONFrom {} (.value .null) = Except.ok ({} : Details) := rfl

/-- C4 (amended): decoding reports an error to the caller for every
syntactically invalid input and for every top-level value that is neither an
object nor `null` (a string, number, array or boolean); a top-level `null` is
the one non-object input that is accepted, and it leaves the `Details`
unchanged. -/
theorem unmarshal_rejects_bad_docs (d : Details) (doc : JSONDoc)
    (h : isBadDoc doc = true) :
    unmarshalJSONFrom d doc = Except.error () := by
  cases doc with
  | malformed => rfl
  | value v => cases v <;> simp_all [isBadDoc, unmarshalJSONFrom, decodeToMap]

/-- Witness for C4 (amended) at the top-level string `"invalid"`. -/
theorem unmarshal_rejects_bad_docs_witness :
    isBadDoc (.value (.str "invalid")) = true ∧
    unmarshalJSONFrom {} (.value (.str "invalid")) = Except.error () :=
  ⟨rfl, unmarshal_rejects_bad_docs {} (.value (.str "invalid")) rfl⟩

/-- C5: decoding a JSON object (distinct member names — the `jsontext`
decoder rejects duplicates) into a fresh `Details` always succeeds, and any
reserved member with the wrong dynamic type — a non-string for
`type`/`title`/`detail`/`instance`, a non-number or a number that is not
integer-valued for `status` — is ignored: the corresponding field keeps its
zero value instead of receiving the wrongly-typed value. -/
theorem unmarshal_ignores_wrong_types (fields : List (String × JSONValue))
    (hnd : (fields.map Prod.fst).Nodup) :
    ∃ d', unmarshalJSONFrom {} (.value (.obj fields)) = Except.ok d' ∧
      (∀ v, mapGet fields "type" = some v → (∀ s, v ≠ .str s) → d'.Typ = "") ∧
      (∀ v, mapGet fields "status" = some v →
        (∀ q : ℚ, q.den = 1 → v ≠ .num q) → d'.Status = 0) ∧
      (∀ v, mapGet fields "title" = some v → (∀ s, v ≠ .str s) → d'.Title = "") ∧
      (∀ v, mapGet fields "detail" = some v → (∀ s, v ≠ .str s) → d'.Detail = "") ∧
      (∀ v, mapGet fields "instance" = some v → (∀ s, v ≠ .str s) → d'.Inst = "") := by
  refine ⟨_, unmarshal_obj fields hnd {}, ?_, ?_, ?_, ?_, ?_⟩
  · intro v hv hns
    rw [setExtensionsFrom_Typ, setInstanceFrom_Typ, setDetailFrom_Typ, setTitleFrom_Typ,
      setStatusFrom_Typ, setTypeFrom_Typ, hv]
    cases v
    case str s => exact absurd rfl (hns s)
    all_goals rfl
  · intro v hv hq
    rw [setExtensionsFrom_Status, setInstanceFrom_Status, setDetailFrom_Status,
      setTitleFrom_Status, setStatusFrom_Status, setTypeFrom_Status, hv]
    cases v
    case num q =>
      rcases eq_or_ne q.den 1 with hden | hden
      · exact absurd rfl (hq q hden)
      · simp [hden]
    all_goals rfl
  · intro v hv hns
    rw [setExtensionsFrom_Title, setInstanceFrom_Title, setDetailFrom_Title,
      setTitleFrom_Title, setStatusFrom_Title, setTypeFrom_Title, hv]
    cases v
    case str s => exact absurd rfl (hns s)
    all_goals rfl
  · intro v hv hns
    rw [setExtensionsFrom_Detail, setInstanceFrom_Detail, setDetailFrom_Detail,
      setTitleFrom_Detail, setStatusFrom_Detail, setTypeFrom_Detail, hv]
    cases v
    case str s => exact absurd rfl (hns s)
    all_goals rfl
  · intro v hv hns
    rw [setExtensionsFrom_Inst, setInstanceFrom_Inst, setDetailFrom_Inst,
      setTitleFrom_Inst, setStatusFrom_Inst, setTypeFrom_Inst, hv]
    cases v
    case str s => exact absurd rfl (hns s)
    all_goals rfl

/-- Witness for C5 at the repository test input `Wrong types`: every reserved
member is present with the wrong type and the result is the zero `Details`. -/
theorem unmarshal_ignores_wrong_types_witness :
    ([("type", JSONValue.bool true), ("title", JSONValue.bool false),
      ("status", JSONValue.str "403"), ("detail", JSONValue.num 1),
      ("instance", JSONValue.arr [JSONValue.str "/a"])].map Prod.fst).Nodup ∧
    ∃ d', unmarshalJSONFrom {}
        (.value (.obj [("type", JSONValue.bool true), ("title", JSONValue.bool false),
          ("status", JSONValue.str "403"), ("detail", JSONValue.num 1),
          ("instance", JSONValue.arr [JSONValue.str "/a"])])) = Except.ok d' ∧
      d'.Typ = "" ∧ d'.Status = 0 ∧ d'.Title = "" ∧ d'.Detail = "" ∧ d'.Inst = "" := by
  constructor
  · decide
  · obtain ⟨d', hok, h1, h2, h3, h4, h5⟩ :=
      unmarshal_ignores_wrong_types
        [("type", JSONValue.bool true), ("title", JSONValue.bool false),
         ("status", JSONValue.str "403"), ("detail", JSONValue.num 1),
         ("instance", JSONValue.arr [JSONValue.str "/a"])] (by decide)
    refine ⟨d', hok, h1 _ rfl ?_, h2 _ rfl ?_, h3 _ rfl ?_, h4 _ rfl ?_, h5 _ rfl ?_⟩
    · intro s h
      cases h
    · intro q hq h
      cases h
    · intro s h
      cases h
    · intro s h
      cases h
    · intro s h
      cases h

/-- C3, counterexample: with `Status = 2^53 + 1` (and all other fields
empty), encode-then-decode yields `Status = 2^53`: the decoder reads the
status out of a `map[string]any`, where JSON numbers are `float64`s, and
`9007199254740993` is not representable as a `float64`. -/
theorem roundtrip_big_status_counterexample :
    encodeThenDecode { Status := 9007199254740993 } =
      Except.ok ({ Status := 9007199254740992 } : Details) ∧
    (9007199254740992 : Int) ≠ 9007199254740993 :=
  ⟨rfl, by decide⟩

/-- C3 (amended): for a `Details` with only the five fixed fields set
(no extensions, no underlying error) and whose `Status` is exactly
representable as a `float64` (`|Status| ≤ 2^53` suffices; every real HTTP
status code is), encoding with `MarshalJSONTo` and decoding the result with
`UnmarshalJSONFrom` into a fresh `Details` succeeds and restores all five
fixed fields exactly, with `Extensions` still empty and `Underlying` still
`none`. -/
theorem roundtrip_fixed_fields (d : Details) (hext : d.Extensions = [])
    (_hund : d.Underlying = none) (hst : d.Status.natAbs ≤ 9007199254740992) :
    encodeThenDecode d =
      Except.ok { Typ := d.Typ, Status := d.Status, Title := d.Title,
                  Detail := d.Detail, Inst := d.Inst } := by
  have hr : roundToF64 d.Status = d.Status := roundToF64_id d.Status hst
  have hb1 : -9223372036854775808 ≤ d.Status := by omega
  have hb2 : d.Status < 9223372036854775808 := by omega
  have hpn : parseNum ((d.Status : ℚ)) = (d.Status : ℚ) := by
    unfold parseNum
    rw [Rat.den_intCast, Rat.num_intCast, hr]
    simp
  have hm : marshalDetails d = .ok (
      (if d.Typ ≠ "" then [("type", JSONValue.str (cmpOr d.Typ AboutBlankTypeURI))] else [])
      ++ ((if d.Status ≠ 0 then [("status", JSONValue.num (d.Status : ℚ))] else [])
      ++ ((if d.Title ≠ "" then [("title", JSONValue.str d.Title)] else [])
      ++ ((if d.Detail ≠ "" then [("detail", JSONValue.str d.Detail)] else [])
      ++ (if d.Inst ≠ "" then [("instance", JSONValue.str d.Inst)] else []))))) := by
    unfold marshalDetails
    rw [hext]
    simp [marshalExt, Except.map]
  rw [encodeThenDecode_ok d _ hm]
  rw [parseFields_append, parseFields_append, parseFields_append, parseFields_append,
    parseFields_if_singleton, parseFields_if_singleton, parseFields_if_singleton,
    parseFields_if_singleton, parseFields_if_singleton]
  simp only [parseVal, hpn]
  have hnd : ((((if d.Typ ≠ "" then [("type", JSONValue.str (cmpOr d.Typ AboutBlankTypeURI))] else [])
      ++ ((if d.Status ≠ 0 then [("status", JSONValue.num (d.Status : ℚ))] else [])
      ++ ((if d.Title ≠ "" then [("title", JSONValue.str d.Title)] else [])
      ++ ((if d.Detail ≠ "" then [("detail", JSONValue.str d.Detail)] else [])
      ++ (if d.Inst ≠ "" then [("instance", JSONValue.str d.Inst)] else []))))) : JSONObj).map
        Prod.fst).Nodup := by
    split_ifs <;> simp_all +decide
  rw [unmarshal_obj _ hnd {}]
  have hT : mapGet (((if d.Typ ≠ "" then [("type", JSONValue.str (cmpOr d.Typ AboutBlankTypeURI))] else [])
      ++ ((if d.Status ≠ 0 then [("status", JSONValue.num (d.Status : ℚ))] else [])
      ++ ((if d.Title ≠ "" then [("title", JSONValue.str d.Title)] else [])
      ++ ((if d.Detail ≠ "" then [("detail", JSONValue.str d.Detail)] else [])
      ++ (if d.Inst ≠ "" then [("instance", JSONValue.str d.Inst)] else []))))) : JSONObj) "type" =
      (if d.Typ = "" then none else some (JSONValue.str d.Typ)) := by
    by_cases h1 : d.Typ = "" <;>
      simp [h1, mapGet, mapGet_append, mapGet_if_singleton, mapGet_if_singleton_flip, orElseO,
        cmpOr]
  have hS : mapGet (((if d.Typ ≠ "" then [("type", JSONValue.str (cmpOr d.Typ AboutBlankTypeURI))] else [])
      ++ ((if d.Status ≠ 0 then [("status", JSONValue.num (d.Status : ℚ))] else [])
      ++ ((if d.Title ≠ "" then [("title", JSONValue.str d.Title)] else [])
      ++ ((if d.Detail ≠ "" then [("detail", JSONValue.str d.Detail)] else [])
      ++ (if d.Inst ≠ "" then [("instance", JSONValue.str d.Inst)] else []))))) : JSONObj) "status" =
      (if d.Status = 0 then none else some (JSONValue.num (d.Status : ℚ))) := by
    by_cases h2 : d.Status = 0 <;>
      simp [h2, mapGet, mapGet_append, mapGet_if_singleton, mapGet_if_singleton_flip, orElseO]
  have hTi : mapGet (((if d.Typ ≠ "" then [("type", JSONValue.str (cmpOr d.Typ AboutBlankTypeURI))] else [])
      ++ ((if d.Status ≠ 0 then [("status", JSONValue.num (d.Status : ℚ))] else [])
      ++ ((if d.Title ≠ "" then [("title", JSONValue.str d.Title)] else [])
      ++ ((if d.Detail ≠ "" then [("detail", JSONValue.str d.Detail)] else [])
      ++ (if d.Inst ≠ "" then [("instance", JSONValue.str d.Inst)] else []))))) : JSONObj) "title" =
      (if d.Title = "" then none else some (JSONValue.str d.Title)) := by
    by_cases h3 : d.Title = "" <;>
      simp [h3, mapGet, mapGet_append, mapGet_if_singleton, mapGet_if_singleton_flip, orElseO]
  have hD : mapGet (((if d.Typ ≠ "" then [("type", JSONValue.str (cmpOr d.Typ AboutBlankTypeURI))] else [])
      ++ ((if d.Status ≠ 0 then [("status", JSONValue.num (d.Status : ℚ))] else [])
      ++ ((if d.Title ≠ "" then [("title", JSONValue.str d.Title)] else [])
      ++ ((if d.Detail ≠ "" then [("detail", JSONValue.str d.Detail)] else [])
      ++ (if d.Inst ≠ "" then [("instance", JSONValue.str d.Inst)] else []))))) : JSONObj) "detail" =
      (if d.Detail = "" then none else some (JSONValue.str d.Detail)) := by
    by_cases h4 : d.Detail = "" <;>
      simp [h4, mapGet, mapGet_append, mapGet_if_singleton, mapGet_if_singleton_flip, orElseO]
  have hI : mapGet (((if d.Typ ≠ "" then [("type", JSONValue.str (cmpOr d.Typ AboutBlankTypeURI))] else [])
      ++ ((if d.Status ≠ 0 then [("status", JSONValue.num (d.Status : ℚ))] else [])
      ++ ((if d.Title ≠ "" then [("title", JSONValue.str d.Title)] else [])
      ++ ((if d.Detail ≠ "" then [("detail", JSONValue.str d.Detail)] else [])
      ++ (if d.Inst ≠ "" then [("instance", JSONValue.str d.Inst)] else []))))) : JSONObj) "instance" =
      (if d.Inst = "" then none else some (JSONValue.str d.Inst)) := by
    by_cases h5 : d.Inst = "" <;>
      simp [h5, mapGet, mapGet_append, mapGet_if_singleton, mapGet_if_singleton_flip, orElseO]
  have hdel : mapDel (mapDel (mapDel (mapDel (mapDel
      (((if d.Typ ≠ "" then [("type", JSONValue.str (cmpOr d.Typ AboutBlankTypeURI))] else [])
      ++ ((if d.Status ≠ 0 then [("status", JSONValue.num (d.Status : ℚ))] else [])
      ++ ((if d.Title ≠ "" then [("title", JSONValue.str d.Title)] else [])
      ++ ((if d.Detail ≠ "" then [("detail", JSONValue.str d.Detail)] else [])
      ++ (if d.Inst ≠ "" then [("instance", JSONValue.str d.Inst)] else []))))) : JSONObj)
      "type") "status") "title") "detail") "instance" = [] := by
    simp [mapDel_append, mapDel_if_singleton, mapDel_if_singleton_flip]
  congr 1
  ext
  · rw [setExtensionsFrom_Typ, setInstanceFrom_Typ, setDetailFrom_Typ, setTitleFrom_Typ,
      setStatusFrom_Typ, setTypeFrom_Typ, hT]
    by_cases h1 : d.Typ = "" <;> simp [h1]
  · rw [setExtensionsFrom_Status, setInstanceFrom_Status, setDetailFrom_Status,
      setTitleFrom_Status, setStatusFrom_Status, setTypeFrom_Status, hS]
    by_cases h2 : d.Status = 0 <;>
      simp [h2, Rat.den_intCast, Rat.num_intCast, hb1, hb2]
  · rw [setExtensionsFrom_Title, setInstanceFrom_Title, setDetailFrom_Title,
      setTitleFrom_Title, setStatusFrom_Title, setTypeFrom_Title, hTi]
    by_cases h3 : d.Title = "" <;> simp [h3]
  · rw [setExtensionsFrom_Detail, setInstanceFrom_Detail, setDetailFrom_Detail,
      setTitleFrom_Detail, setStatusFrom_Detail, setTypeFrom_Detail, hD]
    by_cases h4 : d.Detail = "" <;> simp [h4]
  · rw [setExtensionsFrom_Inst, setInstanceFrom_Inst, setDetailFrom_Inst,
      setTitleFrom_Inst, setStatusFrom_Inst, setTypeFrom_Inst, hI]
    by_cases h5 : d.Inst = "" <;> simp [h5]
  · rw [setExtensionsFrom_of_empty _ _ hdel, setInstanceFrom_Ext, setDetailFrom_Ext,
      setTitleFrom_Ext, setStatusFrom_Ext, setTypeFrom_Ext]
  · rw [setExtensionsFrom_of_empty _ _ hdel, setInstanceFrom_Und, setDetailFrom_Und,
      setTitleFrom_Und, setStatusFrom_Und, setTypeFrom_Und]

/-- Witness for C3 (amended) at a fully populated fixed-fields-only value. -/
theorem roundtrip_fixed_fields_witness :
    (({ Typ := "https://example.com/probs/out-of-credit", Status := 403,
        Title := "You do not have enough credit.", Detail := "D",
        Inst := "/account/12345/msgs/abc" } : Details).Extensions = [] ∧
      ({ Typ := "https://example.com/probs/out-of-credit", Status := 403,
         Title := "You do not have enough credit.", Detail := "D",
         Inst := "/account/12345/msgs/abc" } : Details).Underlying = none ∧
      ({ Typ := "https://example.com/probs/out-of-credit", Status := 403,
         Title := "You do not have enough credit.", Detail := "D",
         Inst := "/account/12345/msgs/abc" } : Details).Status.natAbs ≤ 9007199254740992) ∧
    encodeThenDecode
        { Typ := "https://example.com/probs/out-of-credit", Status := 403,
          Title := "You do not have enough credit.", Detail := "D",
          Inst := "/account/12345/msgs/abc" } =
      Except.ok
        { Typ := "https://example.com/probs/out-of-credit", Status := 403,
          Title := "You do not have enough credit.", Detail := "D",
          Inst := "/account/12345/msgs/abc" } :=
  ⟨⟨rfl, rfl, by decide⟩,
    roundtrip_fixed_fields
      { Typ := "https://example.com/probs/out-of-credit", Status := 403,
        Title := "You do not have enough credit.", Detail := "D",
        Inst := "/account/12345/msgs/abc" } rfl rfl (by decide)⟩

/-- C6: `Is err t` holds exactly when the error's causal chain yields a
`*Details` `d` (via the `errors.As` conversion; `false` when it yields none,
including for a `nil` error) such that each of `t`'s non-empty / non-zero
fields `URI`, `Title`, `Status` equals the corresponding field of `d` — with
an empty `Type` on the `Details` side normalised to `"about:blank"` for the
URI comparison — while empty/zero fields of `t` are wildcards; in particular
an all-empty `ProblemType` matches any convertible `Details`, and the
extensions on either side never influence the result. -/
theorem Is_characterization (err : Option GoError) (t : ProblemType) :
    (Is err t = true ↔
      ∃ e d, err = some e ∧ errorsAsDetails e = some d ∧
        (t.URI ≠ "" → t.URI = (if d.Typ = "" then AboutBlankTypeURI else d.Typ)) ∧
        (t.Title ≠ "" → t.Title = d.Title) ∧
        (t.Status ≠ 0 → t.Status = d.Status)) ∧
    (∀ exts, Is err { t with Extensions := exts } = Is err t) := by
  constructor
  · cases err with
    | none => simp [Is]
    | some e =>
      cases he : errorsAsDetails e with
      | none => simp [Is, he]
      | some d =>
        simp only [Is, he]
        constructor
        · intro h
          refine ⟨e, d, rfl, he, ?_⟩
          by_cases c1 : t.URI ≠ "" ∧ t.URI ≠ cmpOr d.Typ AboutBlankTypeURI
          · simp [c1] at h
          · rw [if_neg c1] at h
            by_cases c2 : t.Title ≠ "" ∧ t.Title ≠ d.Title
            · simp [c2] at h
            · rw [if_neg c2] at h
              by_cases c3 : t.Status ≠ 0 ∧ t.Status ≠ d.Status
              · simp [c3] at h
              · push_neg at c1 c2 c3
                refine ⟨?_, ?_, ?_⟩
                · intro hu
                  have := c1 hu
                  simpa [cmpOr] using this
                · exact c2
                · exact c3
        · rintro ⟨e', d', he', hd', hu, hti, hst⟩
          cases he'
          rw [he] at hd'
          cases hd'
          have c1 : ¬(t.URI ≠ "" ∧ t.URI ≠ cmpOr d.Typ AboutBlankTypeURI) := by
            rintro ⟨hne, hcmp⟩
            exact hcmp (by simpa [cmpOr] using hu hne)
          have c2 : ¬(t.Title ≠ "" ∧ t.Title ≠ d.Title) := by
            rintro ⟨hne, hcmp⟩
            exact hcmp (hti hne)
          have c3 : ¬(t.Status ≠ 0 ∧ t.Status ≠ d.Status) := by
            rintro ⟨hne, hcmp⟩
            exact hcmp (hst hne)
          rw [if_neg c1, if_neg c2, if_neg c3]
  · intro exts
    cases err with
    | none => rfl
    | some e =>
      cases he : errorsAsDetails e <;> simp [Is, he]

/-- C7: `Type.Details` seeds the new instance with the type's `URI`, `Title`
and `Status` (no option can change `URI`/`Title`, which therefore always
come from the template) and a copy of the type's extensions, then applies
the options in call order: for each scalar field and for each individual
extension key the last writer wins, a per-call extension override beating
the template-seeded value under the same key, while template extension keys
no option mentions survive unchanged. (Independence of template and
instance after creation is the `maps.Clone` copy; in this value-semantics
model the two maps are distinct values by construction.) -/
theorem typeDetails_spec (t : ProblemType) (opts : List Opt) :
    (typeDetails t opts).Typ = t.URI ∧
    (typeDetails t opts).Title = t.Title ∧
    (typeDetails t opts).Status = (lastStatus opts).getD t.Status ∧
    (typeDetails t opts).Detail = (lastDetail opts).getD "" ∧
    (typeDetails t opts).Inst = (lastInstance opts).getD "" ∧
    ∀ k, mapGet (typeDetails t opts).Extensions k =
      orElseO (lastExtWrite opts k) (mapGet t.Extensions k) := by
  have hseed : typeDetails t opts =
      opts.foldl (fun d o => applyOpt o d)
        { Typ := t.URI, Status := t.Status, Title := t.Title,
          Extensions := if t.Extensions.isEmpty then [] else t.Extensions } := by
    unfold typeDetails New
    split <;> rfl
  have hexts : ∀ k,
      mapGet (if t.Extensions.isEmpty then [] else t.Extensions) k =
        mapGet t.Extensions k := by
    intro k
    cases h : t.Extensions with
    | nil => simp [h]
    | cons p rest => simp [h]
  rw [hseed]
  refine ⟨foldl_applyOpt_Typ opts _, foldl_applyOpt_Title opts _,
    foldl_applyOpt_Status opts _, foldl_applyOpt_Detail opts _,
    foldl_applyOpt_Inst opts _, ?_⟩
  intro k
  rw [foldl_applyOpt_Ext opts _ k]
  cases lastExtWrite opts k with
  | some v => rfl
  | none => simp [orElseO, hexts k]

/-- Witness for C7 at the repository test `TestType_Details`: the per-call
`currency` override wins over the template value, and the untouched template
key `overdraft` survives. -/
theorem typeDetails_spec_witness :
    mapGet (typeDetails
        { URI := "u", Title := "T", Status := 403,
          Extensions := [("currency", .ok (.str "EUR")), ("overdraft", .ok (.bool false))] }
        [.withStatus 418, .withDetail "D", .withInstance "/i",
         .withExtension "balance" (.ok (.num 30)),
         .withExtension "currency" (.ok (.str "USD"))]).Extensions "currency" =
      some (ExtVal.ok (JSONValue.str "USD")) ∧
    mapGet (typeDetails
        { URI := "u", Title := "T", Status := 403,
          Extensions := [("currency", .ok (.str "EUR")), ("overdraft", .ok (.bool false))] }
        [.withStatus 418, .withDetail "D", .withInstance "/i",
         .withExtension "balance" (.ok (.num 30)),
         .withExtension "currency" (.ok (.str "USD"))]).Extensions "overdraft" =
      some (ExtVal.ok (JSONValue.bool false)) := by
  constructor
  · rw [(typeDetails_spec
      { URI := "u", Title := "T", Status := 403,
        Extensions := [("currency", .ok (.str "EUR")), ("overdraft", .ok (.bool false))] }
      [.withStatus 418, .withDetail "D", .withInstance "/i",
       .withExtension "balance" (.ok (.num 30)),
       .withExtension "currency" (.ok (.str "USD"))]).2.2.2.2.2 "currency"]
    rfl
  · rw [(typeDetails_spec
      { URI := "u", Title := "T", Status := 403,
        Extensions := [("currency", .ok (.str "EUR")), ("overdraft", .ok (.bool false))] }
      [.withStatus 418, .withDetail "D", .withInstance "/i",
       .withExtension "balance" (.ok (.num 30)),
       .withExtension "currency" (.ok (.str "USD"))]).2.2.2.2.2 "overdraft"]
    rfl

/-- C8: when encoding the `Details` fails, `ServeHTTP` panics instead of
returning, and at that point the response writer is exactly as it was: no
body bytes written, no status code written, and the headers (including any
existing `Content-Length` and `Content-Type`) untouched — `json.Marshal` is
called before any mutation of the response. -/
theorem serveHTTP_encode_failure (d : Details) (w : ResponseState)
    (h : marshalDetails d = .error ()) :
    serveHTTP d w = (w, some ()) := by
  unfold serveHTTP
  rw [h]

/-- Witness for C8: a `Details` whose extension value cannot be serialized,
served to a writer with preset headers. -/
theorem serveHTTP_encode_failure_witness :
    marshalDetails { Extensions := [("invalid", ExtVal.bad)] } = .error () ∧
    serveHTTP { Extensions := [("invalid", ExtVal.bad)] }
        { headers := [("Content-Length", "1337"), ("Content-Type", "application/xml")],
          code := none, body := [] } =
      ({ headers := [("Content-Length", "1337"), ("Content-Type", "application/xml")],
         code := none, body := [] }, some ()) :=
  ⟨rfl, serveHTTP_encode_failure { Extensions := [("invalid", ExtVal.bad)] }
    { headers := [("Content-Length", "1337"), ("Content-Type", "application/xml")],
      code := none, body := [] } rfl⟩

/-- C9: when encoding succeeds (and no status has been written yet),
`ServeHTTP` does not panic; the resulting headers have no `Content-Length`,
`Content-Type` is `application/problem+json` and `X-Content-Type-Options` is
`nosniff`; the written status code is `Status` when non-zero and `500`
otherwise; and the body receives exactly the encoded JSON object. -/
theorem serveHTTP_success (d : Details) (w : ResponseState) (b : JSONObj)
    (hb : marshalDetails d = .ok b) (hcode : w.code = none) :
    serveHTTP d w =
      ({ headers := headerSet (headerSet (headerDel w.headers "Content-Length")
            "Content-Type" ContentType) "X-Content-Type-Options" "nosniff",
         code := some (if d.Status = 0 then 500 else d.Status),
         body := w.body ++ [b] }, none) ∧
    mapGet (serveHTTP d w).1.headers "Content-Length" = none ∧
    mapGet (serveHTTP d w).1.headers "Content-Type" = some ContentType ∧
    mapGet (serveHTTP d w).1.headers "X-Content-Type-Options" = some "nosniff" := by
  have heq : serveHTTP d w =
      ({ headers := headerSet (headerSet (headerDel w.headers "Content-Length")
            "Content-Type" ContentType) "X-Content-Type-Options" "nosniff",
         code := some (if d.Status = 0 then 500 else d.Status),
         body := w.body ++ [b] }, none) := by
    unfold serveHTTP
    rw [hb]
    by_cases hs : d.Status = 0 <;> simp [hs, writeHeader, hcode]
  refine ⟨heq, ?_, ?_, ?_⟩ <;>
    simp [heq, mapGet_headerSet, mapGet_headerDel]

/-- Witness for C9 at the spec's example `{Type:"https://x/y", Title:"T",
Status:403}`, served to a writer carrying a stale `Content-Length`. -/
theorem serveHTTP_success_witness :
    marshalDetails { Typ := "https://x/y", Title := "T", Status := 403 } =
      .ok [("type", JSONValue.str "https://x/y"), ("status", JSONValue.num 403),
           ("title", JSONValue.str "T")] ∧
    serveHTTP { Typ := "https://x/y", Title := "T", Status := 403 }
        { headers := [("Content-Length", "1337")], code := none, body := [] } =
      ({ headers := headerSet (headerSet (headerDel [("Content-Length", "1337")]
            "Content-Length") "Content-Type" ContentType) "X-Content-Type-Options" "nosniff",
         code := some (if (403 : Int) = 0 then 500 else 403),
         body := [] ++ [[("type", JSONValue.str "https://x/y"),
            ("status", JSONValue.num 403), ("title", JSONValue.str "T")]] }, none) :=
  ⟨rfl,
    (serveHTTP_success { Typ := "https://x/y", Title := "T", Status := 403 }
      { headers := [("Content-Length", "1337")], code := none, body := [] }
      [("type", JSONValue.str "https://x/y"), ("status", JSONValue.num 403),
       ("title", JSONValue.str "T")] rfl rfl).1⟩

/-- C10, counterexample: a handler that panics with a `*Details` whose
extension value cannot be serialized makes the middleware's own
`ServeHTTP` call panic — the panic escapes to the caller and no response is
served — refuting the claim that in all panic cases a response is served and
no panic is re-raised. -/
theorem handler_unencodable_counterexample :
    handler (fun _ => .panicked { headers := [], code := none, body := [] }
        (.errVal (.details { Extensions := [("invalid", ExtVal.bad)] })))
      { headers := [], code := none, body := [] } =
      ({ headers := [], code := none, body := [] }, some ()) := rfl

/-- C10 (amended): a handler that completes normally is untouched; a panic
with an error whose chain yields a `*Details` that encodes successfully is
answered with that `Details` (its status — or 500 when zero — and its
encoded body), with the panic consumed; a panic carrying no convertible
`*Details` (a non-error value, or an error `errors.As` cannot convert) is
answered with the generic `InternalServerError` (status 500, title
"Internal Server Error"), with the panic consumed. Only when the resolved
`Details` itself fails to encode does the serving call panic and the
response stay unwritten. -/
theorem handler_spec (next : ResponseState → HandlerResult) (w : ResponseState) :
    (∀ w2, next w = .normal w2 → handler next w = (w2, none)) ∧
    (∀ w2 e d b, next w = .panicked w2 (.errVal e) → errorsAsDetails e = some d →
      marshalDetails d = .ok b → w2.code = none →
      handler next w =
        ({ headers := headerSet (headerSet (headerDel w2.headers "Content-Length")
              "Content-Type" ContentType) "X-Content-Type-Options" "nosniff",
           code := some (if d.Status = 0 then 500 else d.Status),
           body := w2.body ++ [b] }, none)) ∧
    (∀ w2 v, next w = .panicked w2 v → recoveredDetails v = none → w2.code = none →
      handler next w =
        ({ headers := headerSet (headerSet (headerDel w2.headers "Content-Length")
              "Content-Type" ContentType) "X-Content-Type-Options" "nosniff",
           code := some 500,
           body := w2.body ++ [[("status", JSONValue.num 500),
              ("title", JSONValue.str "Internal Server Error")]] }, none)) := by
  refine ⟨?_, ?_, ?_⟩
  · intro w2 hn
    unfold handler
    rw [hn]
  · intro w2 e d b hn he hb hcode
    unfold handler
    rw [hn]
    simp only [recoveredDetails, he, Option.getD_some]
    unfold serveHTTP
    rw [hb]
    by_cases hs : d.Status = 0 <;> simp [hs, writeHeader, hcode]
  · intro w2 v hn hv hcode
    unfold handler
    rw [hn]
    simp only [hv, Option.getD_none]
    unfold serveHTTP
    have hISE : marshalDetails InternalServerError =
        .ok [("status", JSONValue.num 500),
             ("title", JSONValue.str "Internal Server Error")] := rfl
    rw [hISE]
    simp [InternalServerError, writeHeader, hcode]

/-- Witness for C10 (amended) at a handler panicking with a wrapped teapot
`Details` (the repository test's `wrappedDetailsError` scenario). -/
theorem handler_spec_witness :
    handler (fun _ => .panicked { headers := [], code := none, body := [] }
        (.errVal (.wrap (.details { Status := 418, Title := "I am a teapot" }))))
      { headers := [], code := none, body := [] } =
      ({ headers := headerSet (headerSet (headerDel [] "Content-Length")
            "Content-Type" ContentType) "X-Content-Type-Options" "nosniff",
         code := some (if (418 : Int) = 0 then 500 else 418),
         body := [] ++ [[("status", JSONValue.num 418),
            ("title", JSONValue.str "I am a teapot")]] }, none) :=
  (handler_spec (fun _ => .panicked { headers := [], code := none, body := [] }
      (.errVal (.wrap (.details { Status := 418, Title := "I am a teapot" }))))
    { headers := [], code := none, body := [] }).2.1
    { headers := [], code := none, body := [] }
    (.wrap (.details { Status := 418, Title := "I am a teapot" }))
    { Status := 418, Title := "I am a teapot" }
    [("status", JSONValue.num 418), ("title", JSONValue.str "I am a teapot")]
    rfl rfl rfl rfl

end Problem
